import Mathlib

/-!
Verification of the Fly provider core (daytona-provider-fly).

Shallow embedding of the Go sources:
* `pkg/provider/util/fly.go` — resource naming, machine lookup, lifecycle
  operations, log polling;
* `pkg/provider/provider.go` — readiness poller `checkMachineReady`,
  metadata operations;
* `pkg/provider/conn.go` — `waitForDial`, `getDockerClient`;
* `pkg/types/targets.go` — `ParseTargetOptions`.

Remote calls are modelled by passing in the responses the code consumes
(`Except`-valued parameters); side effects such as issued API commands,
sleeps and file removals are returned explicitly.  Go strings appearing
here are ASCII, so Go byte length/slicing coincides with `List Char`
length/`take`.
-/

namespace DaytonaFly

/-! ## Resource naming (`pkg/provider/util/fly.go`) -/

/-- Embeds `getResourceName`: `fmt.Sprintf("daytona-%s", identifier)`. -/
def getResourceName (identifier : String) : String :=
  "daytona-" ++ identifier

/-- Character class of the regex `[^a-zA-Z0-9_]` in `getVolumeName`
(characters that are kept, i.e. NOT matched by the regex). -/
def isAllowedNameChar (c : Char) : Bool :=
  c.isAlpha || c.isDigit || c == '_'

/-- The character list of `fmt.Sprintf("daytona_%s", name)` after
`regex.ReplaceAllString(name, "")` removed every character outside
`[a-zA-Z0-9_]`. -/
def volumeNameChars (name : String) : List Char :=
  ("daytona_" ++ name).toList.filter isAllowedNameChar

/-- Embeds `getVolumeName`: prefix with `daytona_`, strip disallowed
characters, truncate to 30.  The sanitized string is pure ASCII, so the
Go byte-level `len`/`[:30]` agree with `List.length`/`List.take`. -/
def getVolumeName (name : String) : String :=
  let formatted := volumeNameChars name
  if formatted.length > 30 then String.mk (formatted.take 30)
  else String.mk formatted

/-! ## Machines and lookup (`pkg/provider/util/fly.go`) -/

/-- Embeds `fly.MachineMount` (the fields used by this provider). -/
structure MachineMount where
  name : String
  volume : String
  path : String
  sizeGb : Int
deriving DecidableEq, Inhabited

/-- Embeds the used part of `fly.MachineConfig`. -/
structure MachineConfig where
  mounts : List MachineMount
deriving DecidableEq, Inhabited

/-- Embeds the used part of `fly.Machine`. -/
structure Machine where
  id : String
  name : String
  state : String
  createdAt : String
  config : MachineConfig
deriving DecidableEq, Inhabited

def MachineStateCreated : String := "created"
def MachineStateStarted : String := "started"
def MachineStateStopped : String := "stopped"

/-- Embeds the used part of `workspace.Project`. -/
structure Project where
  name : String
  workspaceId : String
deriving DecidableEq, Inhabited

/-- Embeds `findMachine`: list all machines of the app (the `List` call's
response is the parameter), then return the first machine whose name
equals `machineName`, or an error when none matches. -/
def findMachine (listRes : Except String (List Machine)) (machineName : String) :
    Except String Machine :=
  match listRes with
  | .error e => .error e
  | .ok machineList =>
    match machineList.find? (fun m => m.name == machineName) with
    | some m => .ok m
    | none => .error ("machine " ++ machineName ++ " not found")

/-- The `knownStatus` slice of `IsMachineReady`. -/
def knownStatus : List String :=
  [MachineStateCreated, MachineStateStarted, MachineStateStopped]

/-- Embeds `IsMachineReady`: false when the flaps-client construction
fails, false when the by-name lookup fails, otherwise
`slices.Contains(knownStatus, machine.State)`. -/
def IsMachineReady (clientRes : Except String Unit)
    (listRes : Except String (List Machine)) (project : Project) : Bool :=
  match clientRes with
  | .error _ => false
  | .ok _ =>
    match findMachine listRes (getResourceName project.name) with
    | .error _ => false
    | .ok machine => knownStatus.contains machine.state

/-! ## Start/Stop machine (`pkg/provider/util/fly.go`) -/

/-- A mutating command issued to the remote flaps API. -/
inductive FlapsCommand where
  | start (machineId : String)
  | stop (machineId : String)
deriving DecidableEq

/-- Responses of the remote API consumed by `StartMachine`/`StopMachine`. -/
structure MachineApi where
  clientRes : Except String Unit
  waitForAppRes : Except String Unit
  listRes : Except String (List Machine)
  startRes : Except String Unit
  stopRes : Except String Unit

/-- Embeds `StartMachine`: create client, wait for app, find machine by
name, and issue `flapsClient.Start` only when `machine.State` is
`"stopped"`.  The second component records the commands issued. -/
def StartMachine (api : MachineApi) (project : Project) :
    Except String Unit × List FlapsCommand :=
  match api.clientRes with
  | .error e => (.error e, [])
  | .ok _ =>
    match api.waitForAppRes with
    | .error e => (.error ("there was an issue waiting for the app: " ++ e), [])
    | .ok _ =>
      match findMachine api.listRes (getResourceName project.name) with
      | .error e => (.error e, [])
      | .ok machine =>
        if machine.state == MachineStateStopped then
          match api.startRes with
          | .error e => (.error e, [.start machine.id])
          | .ok _ => (.ok (), [.start machine.id])
        else (.ok (), [])

/-- Embeds `StopMachine`: create client, find machine by name, and return
`flapsClient.Stop(...)` — the stop command is issued unconditionally,
with no check of the machine's current state. -/
def StopMachine (api : MachineApi) (project : Project) :
    Except String Unit × List FlapsCommand :=
  match api.clientRes with
  | .error e => (.error e, [])
  | .ok _ =>
    match findMachine api.listRes (getResourceName project.name) with
    | .error e => (.error e, [])
    | .ok machine =>
      match api.stopRes with
      | .error e => (.error e, [.stop machine.id])
      | .ok _ => (.ok (), [.stop machine.id])

/-! ## DeleteApp (`pkg/provider/util/fly.go`) -/

/-- An HTTP response as seen by `DeleteApp` (only the status code is
inspected). -/
structure HttpResponse where
  statusCode : Nat
deriving DecidableEq

/-- `http.StatusAccepted`. -/
def StatusAccepted : Nat := 202

/-- Embeds `DeleteApp` after the DELETE request: client construction,
request construction and transport failures are returned as-is; then
`if resp.StatusCode != http.StatusAccepted` produce the formatted error,
else success. -/
def DeleteApp (clientRes : Except String Unit) (reqRes : Except String Unit)
    (respRes : Except String HttpResponse) : Except String Unit :=
  match clientRes with
  | .error e => .error e
  | .ok _ =>
    match reqRes with
    | .error e => .error e
    | .ok _ =>
      match respRes with
      | .error e => .error e
      | .ok resp =>
        if resp.statusCode ≠ StatusAccepted then
          .error ("unexpected error while deleting the app status code: "
            ++ toString resp.statusCode)
        else .ok ()

/-! ## Configuration resolution (`pkg/types/targets.go`) -/

/-- Embeds the resolved `types.TargetOptions` struct. -/
structure TargetOptions where
  region : String
  size : String
  diskSize : Int
  orgSlug : String
  authToken : String
deriving DecidableEq

/-- A decoded JSON object for `TargetOptions`: `none` for a field that is
absent from the JSON input.  `json.Unmarshal` leaves absent fields at
their zero value. -/
structure TargetOptionsJson where
  region : Option String := none
  size : Option String := none
  diskSize : Option Int := none
  orgSlug : Option String := none
  authToken : Option String := none

/-- Go zero values supplied by `json.Unmarshal` for absent fields. -/
def unmarshalTargetOptions (j : TargetOptionsJson) : TargetOptions :=
  { region := j.region.getD ""
    size := j.size.getD ""
    diskSize := j.diskSize.getD 0
    orgSlug := j.orgSlug.getD ""
    authToken := j.authToken.getD "" }

/-- Embeds `ParseTargetOptions`: unmarshal (a malformed input is the
`.error` case of `jsonRes`), fall back to the `FLY_ACCESS_TOKEN`
environment variable when the token is empty (`env` is the result of
`os.LookupEnv`), then reject an empty token or an empty org slug. -/
def ParseTargetOptions (jsonRes : Except String TargetOptionsJson)
    (env : Option String) : Except String TargetOptions :=
  match jsonRes with
  | .error e => .error e
  | .ok j =>
    let targetOptions := unmarshalTargetOptions j
    let targetOptions :=
      if targetOptions.authToken == "" then
        match env with
        | some token => { targetOptions with authToken := token }
        | none => targetOptions
      else targetOptions
    if targetOptions.authToken == "" then
      .error "auth token not set in env/target options"
    else if targetOptions.orgSlug == "" then
      .error "org slug not set in target options"
    else .ok targetOptions

/-! ## Log polling (`pkg/provider/util/fly.go`, `pollLogs`) -/

/-- Embeds the used fields of `fly.LogEntry` (`Instance` is renamed
`instanceName`: `instance` is a Lean keyword). -/
structure LogEntry where
  timestamp : String
  instanceName : String
  region : String
  level : String
  message : String
deriving DecidableEq

/-- Embeds the `fmt.Sprintf("%s app[%s] %s [%s] %s \n", ...)` line
format of `pollLogs`. -/
def formatLogEntry (e : LogEntry) : String :=
  e.timestamp ++ " app[" ++ e.instanceName ++ "] " ++ e.region ++ " ["
    ++ e.level ++ "] " ++ e.message ++ " \n"

/-- One `GetAppLogs` response: a page of entries plus the returned
pagination token. -/
abbrev LogPage := List LogEntry × String

/-- Observable trace of a `pollLogs` run. -/
structure PollLogsTrace where
  /-- Messages sent to the `out` channel, in send order. -/
  output : List String
  /-- One flag per successful fetch: whether the 10-second sleep ran
  (`token == prevToken`). -/
  slept : List Bool
  /-- The `nextToken` argument passed to each `GetAppLogs` call, in call
  order. -/
  fetches : List String
  /-- `some e` when the loop returned error `e`; `none` when the response
  script was exhausted with the loop still running. -/
  result : Option String
deriving DecidableEq

/-- Embeds the `pollLogs` loop.  `responses` scripts the successive
`GetAppLogs` results; `prevToken`/`nextToken` are the loop variables
(both start as `""`).  Each iteration: fetch; on error return it; sleep
10s when the returned token equals the previous one; set
`prevToken = token`; set `nextToken = token` only when `token != ""`;
send the page's formatted entries in order. -/
def pollLogs (responses : List (Except String LogPage))
    (prevToken nextToken : String) : PollLogsTrace :=
  match responses with
  | [] => { output := [], slept := [], fetches := [], result := none }
  | r :: rest =>
    match r with
    | .error e =>
      { output := [], slept := [], fetches := [nextToken], result := some e }
    | .ok (entries, token) =>
      let sleptNow := token == prevToken
      let nextToken' := if token != "" then token else nextToken
      let tr := pollLogs rest token nextToken'
      { output := entries.map formatLogEntry ++ tr.output
        slept := sleptNow :: tr.slept
        fetches := nextToken :: tr.fetches
        result := tr.result }

/-- Specification-side view of a response script: the pages returned
before the first fetch error. -/
def okPages : List (Except String LogPage) → List LogPage
  | [] => []
  | .ok p :: rest => p :: okPages rest
  | .error _ :: _ => []

/-- Specification-side view: the first fetch error of the script, if the
loop ever reaches one. -/
def scriptError : List (Except String LogPage) → Option String
  | [] => none
  | .ok _ :: rest => scriptError rest
  | .error e :: _ => some e

/-- Specification-side sleep flags: iteration `i` sleeps exactly when the
returned token equals the previously returned token (initially
`prevToken`). -/
def specSleepFlags (prevToken : String) : List String → List Bool
  | [] => []
  | t :: ts => (t == prevToken) :: specSleepFlags t ts

/-- Specification-side fetch tokens, given the returned tokens of the
successful pages and whether a final fetch errors: the first fetch uses
`nextToken`; each later fetch uses the previously returned token unless
it was empty, in which case the previous fetch token is reused. -/
def specFetchTokens (nextToken : String) :
    List String → Bool → List String
  | [], false => []
  | [], true => [nextToken]
  | t :: ts, errAfter =>
    nextToken :: specFetchTokens (if t != "" then t else nextToken) ts errAfter

/-! ## Readiness poller (`pkg/provider/provider.go`, `checkMachineReady`) -/

/-- State of the readiness-poll loop between iterations: current time and
the arrival time of the next undelivered ticker tick (milliseconds since
the poll started). -/
structure PollTickState where
  now : Nat
  nextTick : Nat
deriving DecidableEq

/-- Embeds the `checkMachineReady` loop:

```go
ticker := time.NewTicker(200 * time.Millisecond)
end := time.Now().Add(5 * time.Minute)
for {
    select {
    case <-ticker.C:
        if flyutil.IsMachineReady(...) { return nil }
    default:
        if time.Now().After(end) { return errors.New("machine was not ready within 5 minutes") }
    }
}
```

A Go `select` with a `default` branch takes the ticker branch exactly
when a tick is pending (`s.nextTick ≤ s.now`); consuming it makes the
next tick due one `tickInterval` later.  `ready t` is the value of
`IsMachineReady` at time `t`; a readiness check takes `checkDur`, a pass
through the `default` branch takes `defaultDur`.  `fuel` bounds the
number of iterations observed; `none` means the loop was still running
after `fuel` iterations. -/
def checkMachineReadyRun (ready : Nat → Bool)
    (tickInterval checkDur defaultDur deadline : Nat) :
    Nat → PollTickState → Option (Except String Unit)
  | 0, _ => none
  | fuel + 1, s =>
    if s.nextTick ≤ s.now then
      if ready s.now then some (.ok ())
      else checkMachineReadyRun ready tickInterval checkDur defaultDur deadline
        fuel { now := s.now + checkDur, nextTick := s.nextTick + tickInterval }
    else
      if deadline < s.now then
        some (.error "machine was not ready within 5 minutes")
      else checkMachineReadyRun ready tickInterval checkDur defaultDur deadline
        fuel { now := s.now + defaultDur, nextTick := s.nextTick }

/-- `checkMachineReady`'s constants: 200 ms tick, 5-minute deadline, in
milliseconds. -/
def pollTickIntervalMs : Nat := 200

def pollDeadlineMs : Nat := 300000

/-! ## Dial wait (`pkg/provider/conn.go`, `waitForDial`) -/

/-- Embeds the `waitForDial` loop.  `dials k` tells whether dial attempt
`k` succeeds; a failing attempt takes `dialDur` and is followed by a
1-second sleep (`sleepDur`); `dialTimeout` is the configured timeout.
Arguments of the recursion: remaining fuel, attempt index, elapsed time
`now` (`time.Since(dialStartTime)`).  Results: `some (.ok k)` — attempt
`k` succeeded; `some (.error (carried, elapsed))` — the timeout branch
returned, where `carried` is the duration printed in the error message
(the code formats `dialTimeout.Minutes()`) and `elapsed` is the actual
elapsed time at that moment; `none` — fuel ran out. -/
def waitForDialRun (dials : Nat → Bool) (dialDur sleepDur dialTimeout : Nat) :
    Nat → Nat → Nat → Option (Except (Nat × Nat) Nat)
  | 0, _, _ => none
  | fuel + 1, k, now =>
    if dialTimeout < now then some (.error (dialTimeout, now))
    else if dials k then some (.ok k)
    else waitForDialRun dials dialDur sleepDur dialTimeout fuel (k + 1)
      (now + (dialDur + sleepDur))

/-! ## Docker client / socket forward (`pkg/provider/conn.go`,
`getDockerClient`) -/

/-- Observable outcome of a `getDockerClient` call. -/
structure DockerClientTrace where
  /-- Whether a new background forwarding task was started. -/
  startedForward : Bool
  /-- Whether the local socket file was removed (`os.Remove`). -/
  removedSocket : Bool
  /-- `.ok ()` when a docker client was returned. -/
  result : Except String Unit

/-- Embeds `getDockerClient`.  `tsnetRes`: `getTsnetConn`; `dirExists`:
whether `os.Stat` on the local socket path's parent directory succeeds;
`mkdirRes`: `os.MkdirAll`; `forwardRes`: `.ok ()` when the background
forward reports `started = true`, `.error e` when the error channel
fires first (the goroutine then logs, sends `started = false` and
removes the local socket file); `clientRes`: `client.NewClientWithOpts`
on the local unix socket. -/
def getDockerClient (tsnetRes : Except String Unit) (dirExists : Bool)
    (mkdirRes : Except String Unit) (forwardRes : Except String Unit)
    (clientRes : Except String Unit) : DockerClientTrace :=
  match tsnetRes with
  | .error e => { startedForward := false, removedSocket := false, result := .error e }
  | .ok _ =>
    if dirExists then
      { startedForward := false, removedSocket := false, result := clientRes }
    else
      match mkdirRes with
      | .error e =>
        { startedForward := false, removedSocket := false, result := .error e }
      | .ok _ =>
        match forwardRes with
        | .error _ =>
          { startedForward := true, removedSocket := true
            result := .error "failed to start SSH tunnel" }
        | .ok _ =>
          { startedForward := true, removedSocket := false, result := clientRes }

/-- Local filesystem state seen by `getDockerClient` across calls: the
socket path's parent directory and the socket file itself. -/
structure SockFs where
  dirExists : Bool
  sockFileExists : Bool
deriving DecidableEq

/-- Embeds `getDockerClient` together with its effect on the local
filesystem.  The dedup check is `os.Stat` on the socket path's PARENT
DIRECTORY; `os.MkdirAll` creates that directory and nothing ever removes
it; a successful forward creates the local unix socket listener; the
failure goroutine removes only the socket FILE (`os.Remove(localSockPath)`),
leaving the directory in place. -/
def getDockerClientFs (tsnetRes mkdirRes forwardRes clientRes : Except String Unit)
    (fs : SockFs) : DockerClientTrace × SockFs :=
  let tr := getDockerClient tsnetRes fs.dirExists mkdirRes forwardRes clientRes
  match tsnetRes with
  | .error _ => (tr, fs)
  | .ok _ =>
    if fs.dirExists then (tr, fs)
    else
      match mkdirRes with
      | .error _ => (tr, fs)
      | .ok _ =>
        match forwardRes with
        | .error _ => (tr, { dirExists := true, sockFileExists := false })
        | .ok _ => (tr, { dirExists := true, sockFileExists := true })

/-! ## Metadata operations (`pkg/provider/provider.go`,
`src/unnamed/part_001`) -/

/-- Embeds `types.TargetMetadata`. -/
structure TargetMetadata where
  machineId : String
  volumeId : String
  isRunning : Bool
  created : String
deriving DecidableEq

/-- Embeds `types.ProjectMetadata`. -/
structure ProjectMetadata where
  machineId : String
  volumeId : String
deriving DecidableEq

/-- Embeds `types.WorkspaceMetadata`. -/
structure WorkspaceMetadata where
  machineId : String
  volumeId : String
  isRunning : Bool
  created : String
deriving DecidableEq

/-- Embeds the metadata construction of `GetTargetProviderMetadata`:
a lookup failure is returned as an error, and `machine.Config.Mounts[0]`
is read with no emptiness check — an empty mount list is a Go
index-out-of-range panic, modelled as `none`. -/
def GetTargetProviderMetadata (machineRes : Except String Machine) :
    Option (Except String TargetMetadata) :=
  match machineRes with
  | .error e => some (.error e)
  | .ok machine =>
    match machine.config.mounts with
    | [] => none
    | mount :: _ =>
      some (.ok
        { machineId := machine.id
          volumeId := mount.volume
          isRunning := machine.state == MachineStateStarted
          created := machine.createdAt })

/-- Embeds the metadata construction of `getProjectInfo` (same unchecked
`Mounts[0]` access). -/
def getProjectInfoMetadata (machineRes : Except String Machine) :
    Option (Except String ProjectMetadata) :=
  match machineRes with
  | .error e => some (.error e)
  | .ok machine =>
    match machine.config.mounts with
    | [] => none
    | mount :: _ =>
      some (.ok { machineId := machine.id, volumeId := mount.volume })

/-- Embeds the metadata construction of `getWorkspaceInfo`
(`src/unnamed/part_001`, same unchecked `Mounts[0]` access). -/
def getWorkspaceInfoMetadata (machineRes : Except String Machine) :
    Option (Except String WorkspaceMetadata) :=
  match machineRes with
  | .error e => some (.error e)
  | .ok machine =>
    match machine.config.mounts with
    | [] => none
    | mount :: _ =>
      some (.ok
        { machineId := machine.id
          volumeId := mount.volume
          isRunning := machine.state == MachineStateStarted
          created := machine.createdAt })

/-! ## Concrete fixtures used by witnesses and counterexamples -/

/-- A machine in state `started`, named for `sampleProject`. -/
def sampleStartedMachine : Machine :=
  { id := "m1", name := "daytona-proj", state := "started", createdAt := ""
    config := { mounts := [] } }

/-- A machine in state `stopped`, named for `sampleProject`. -/
def sampleStoppedMachine : Machine :=
  { id := "m1", name := "daytona-proj", state := "stopped", createdAt := ""
    config := { mounts := [] } }

/-- The project whose derived machine name is `daytona-proj`. -/
def sampleProject : Project := { name := "proj", workspaceId := "ws" }

/-- Remote API responses: every call succeeds and the app contains only
`sampleStoppedMachine`. -/
def sampleStoppedApi : MachineApi :=
  { clientRes := .ok (), waitForAppRes := .ok ()
    listRes := .ok [sampleStoppedMachine], startRes := .ok (), stopRes := .ok () }

/-- A volume mount, for the metadata operations. -/
def sampleMount : MachineMount :=
  { name := "vol", volume := "vol_id1", path := "/home/u", sizeGb := 10 }

/-- A machine with one volume mount, for the metadata operations. -/
def sampleMountedMachine : Machine :=
  { id := "m2", name := "daytona-proj", state := "started", createdAt := "t0"
    config := { mounts := [sampleMount] } }

/-! ## Helper lemmas -/

theorem mk_length (l : List Char) : (String.mk l).length = l.length := rfl

theorem mk_toList (l : List Char) : (String.mk l).toList = l := rfl

theorem volumeNameChars_eq (name : String) :
    volumeNameChars name = "daytona_".toList ++ name.toList.filter isAllowedNameChar := by
  unfold volumeNameChars
  rw [show ("daytona_" ++ name).toList = "daytona_".toList ++ name.toList from by
    simp [String.toList, String.data_append]]
  rw [List.filter_append]
  congr 1

theorem getVolumeName_len (name : String) : (getVolumeName name).length ≤ 30 := by
  unfold getVolumeName
  by_cases h : (volumeNameChars name).length > 30
  · rw [if_pos h, mk_length]
    simp [List.length_take]
  · rw [if_neg h, mk_length]
    omega

theorem getVolumeName_charset (name : String) :
    (getVolumeName name).toList.all isAllowedNameChar = true := by
  unfold getVolumeName
  have hfil : ∀ c ∈ volumeNameChars name, isAllowedNameChar c = true := by
    intro c hc
    exact (List.mem_filter.mp hc).2
  by_cases h : (volumeNameChars name).length > 30
  · rw [if_pos h, mk_toList, List.all_eq_true]
    intro c hc
    exact hfil c (List.take_subset _ _ hc)
  · rw [if_neg h, mk_toList, List.all_eq_true]
    exact hfil

theorem getVolumeName_tag (name : String) :
    ∃ t, (getVolumeName name).toList = "daytona_".toList ++ t := by
  unfold getVolumeName
  by_cases h : (volumeNameChars name).length > 30
  · rw [if_pos h, mk_toList, volumeNameChars_eq, List.take_append_eq_append_take,
      List.take_of_length_le (by decide)]
    exact ⟨_, rfl⟩
  · rw [if_neg h, mk_toList, volumeNameChars_eq]
    exact ⟨_, rfl⟩

theorem getResourceName_tag (id : String) :
    ∃ u, (getResourceName id).toList = "daytona-".toList ++ u := by
  refine ⟨id.toList, ?_⟩
  simp [getResourceName, String.toList, String.data_append]

/-! ## Claim theorems -/

/-- Claim C2, counterexample: `getResourceName` output is NOT restricted
to `[A-Za-z0-9_]` — already on input `"x"` the output `"daytona-x"`
contains `'-'` — and it is not truncated to 30 characters either: a
26-character identifier yields a 34-character name. -/
theorem C2_resource_naming_counterexample :
    (getResourceName "x").toList.all isAllowedNameChar = false ∧
    30 < (getResourceName "abcdefghijklmnopqrstuvwxyz").length := by
  constructor
  · decide
  · decide

/-- Claim C2 (amended): naming is pure and deterministic; the VOLUME name
is sanitized to `[A-Za-z0-9_]` and truncated to at most 30 characters,
under the fixed namespace tag `daytona_`; the app/machine name is the
distinct fixed namespace tag `daytona-` followed by the identifier
verbatim, with no sanitization and no truncation. -/
theorem C2_resource_naming (id : String) :
    (getVolumeName id).length ≤ 30 ∧
    (getVolumeName id).toList.all isAllowedNameChar = true ∧
    (∃ t, (getVolumeName id).toList = "daytona_".toList ++ t) ∧
    (∃ u, (getResourceName id).toList = "daytona-".toList ++ u) ∧
    getResourceName id = "daytona-" ++ id ∧
    ("daytona-" : String) ≠ "daytona_" := by
  refine ⟨getVolumeName_len id, getVolumeName_charset id, getVolumeName_tag id,
    getResourceName_tag id, rfl, by decide⟩

/-- Claim C4: `DeleteApp` treats exactly HTTP 202 (`StatusAccepted`) as
success — the success contract the spec designates — and for every other
status returns an error message carrying the status code. -/
theorem C4_DeleteApp_success_iff (resp : HttpResponse) :
    (DeleteApp (.ok ()) (.ok ()) (.ok resp) = .ok () ↔
      resp.statusCode = StatusAccepted) ∧
    (resp.statusCode ≠ StatusAccepted →
      DeleteApp (.ok ()) (.ok ()) (.ok resp) =
        .error ("unexpected error while deleting the app status code: "
          ++ toString resp.statusCode)) := by
  constructor
  · by_cases h : resp.statusCode = StatusAccepted <;> simp [DeleteApp, h]
  · intro h
    simp [DeleteApp, h]

/-- Witness for C4: status 404 is rejected with the formatted error and
status 202 is accepted. -/
theorem C4_DeleteApp_success_iff_witness :
    ((404 : Nat) ≠ StatusAccepted ∧
      DeleteApp (.ok ()) (.ok ()) (.ok ⟨404⟩) =
        .error ("unexpected error while deleting the app status code: "
          ++ toString (404 : Nat))) ∧
    DeleteApp (.ok ()) (.ok ()) (.ok ⟨202⟩) = .ok () := by
  refine ⟨⟨by decide, (C4_DeleteApp_success_iff ⟨404⟩).2 (by decide)⟩, ?_⟩
  exact (C4_DeleteApp_success_iff ⟨202⟩).1.mpr rfl

theorem findMachine_ok_name {listRes : Except String (List Machine)}
    {machineName : String} {m : Machine}
    (h : findMachine listRes machineName = .ok m) : m.name = machineName := by
  unfold findMachine at h
  cases listRes with
  | error e => simp at h
  | ok machineList =>
    cases hf : machineList.find? (fun m => m.name == machineName) with
    | none => simp [hf] at h
    | some m' =>
      simp only [hf] at h
      have hm : m' = m := by simpa using h
      subst hm
      have := List.find?_some hf
      simpa using this

theorem contains_iff_mem (l : List String) (s : String) :
    l.contains s = true ↔ s ∈ l := by
  simp [List.contains]

/-- Claim C6: `IsMachineReady` returns true exactly when the by-name
lookup succeeds (the found machine's name equals the derived machine
name) with a state in the known-good set `{created, started, stopped}`,
and returns false whenever client construction or the lookup fails. -/
theorem C6_IsMachineReady_iff (clientRes : Except String Unit)
    (listRes : Except String (List Machine)) (project : Project) :
    IsMachineReady clientRes listRes project = true ↔
      (clientRes = .ok () ∧
        ∃ m, findMachine listRes (getResourceName project.name) = .ok m ∧
          m.name = getResourceName project.name ∧ m.state ∈ knownStatus) := by
  unfold IsMachineReady
  cases clientRes with
  | error e => simp
  | ok u =>
    cases hf : findMachine listRes (getResourceName project.name) with
    | error e => simp [hf]
    | ok machine =>
      rw [contains_iff_mem]
      constructor
      · intro h
        exact ⟨rfl, machine, rfl, findMachine_ok_name hf, h⟩
      · rintro ⟨-, m, hm, hname, hmem⟩
        have heq : machine = m := by simpa using hm
        rw [heq]
        exact hmem

/-- Witness for C6: a concrete started machine found by exact name. -/
theorem C6_IsMachineReady_iff_witness :
    IsMachineReady (.ok ()) (.ok [sampleStartedMachine]) sampleProject = true ↔
      ((.ok () : Except String Unit) = .ok () ∧
        ∃ m, findMachine (.ok [sampleStartedMachine])
            (getResourceName sampleProject.name) = .ok m ∧
          m.name = getResourceName sampleProject.name ∧ m.state ∈ knownStatus) :=
  C6_IsMachineReady_iff _ _ _

/-- Claim C5, counterexample: for a machine that is already `stopped`,
`StopMachine` still issues a stop command to the remote API — it does
not check the current state. -/
theorem C5_StopMachine_counterexample :
    sampleStoppedMachine.state = MachineStateStopped ∧
    (StopMachine sampleStoppedApi sampleProject).2
      = [.stop sampleStoppedMachine.id] := by
  exact ⟨rfl, rfl⟩

/-- Claim C5 (amended): `StartMachine` checks the machine's current state
via the by-name lookup and issues a start command only when the state is
`"stopped"` (returning success without a command otherwise), while
`StopMachine` issues the stop command unconditionally, with no state
check. -/
theorem C5_start_stop_state_check (api : MachineApi) (project : Project)
    (m : Machine) (hclient : api.clientRes = .ok ())
    (hwait : api.waitForAppRes = .ok ())
    (hfind : findMachine api.listRes (getResourceName project.name) = .ok m)
    (hstart : api.startRes = .ok ()) (hstop : api.stopRes = .ok ()) :
    (StartMachine api project).2
      = (if m.state = MachineStateStopped then [.start m.id] else []) ∧
    (StartMachine api project).1 = .ok () ∧
    (StopMachine api project).2 = [.stop m.id] ∧
    (StopMachine api project).1 = .ok () := by
  unfold StartMachine StopMachine
  rw [hclient, hwait, hfind, hstart, hstop]
  by_cases hs : m.state = MachineStateStopped
  · simp [hs]
  · simp [hs]

/-- Witness for C5: the amended claim at the concrete stopped machine. -/
theorem C5_start_stop_state_check_witness :
    (StartMachine sampleStoppedApi sampleProject).2
      = (if sampleStoppedMachine.state = MachineStateStopped
          then [.start sampleStoppedMachine.id] else []) ∧
    (StartMachine sampleStoppedApi sampleProject).1 = .ok () ∧
    (StopMachine sampleStoppedApi sampleProject).2
      = [.stop sampleStoppedMachine.id] ∧
    (StopMachine sampleStoppedApi sampleProject).1 = .ok () :=
  C5_start_stop_state_check sampleStoppedApi sampleProject sampleStoppedMachine
    rfl rfl rfl rfl rfl

theorem parse_checks {t r : TargetOptions}
    (h : (if t.authToken == "" then
            (.error "auth token not set in env/target options" :
              Except String TargetOptions)
          else if t.orgSlug == "" then
            .error "org slug not set in target options"
          else .ok t) = .ok r) :
    r.authToken ≠ "" ∧ r.orgSlug ≠ "" := by
  by_cases hA : t.authToken == ""
  · rw [if_pos hA] at h
    simp at h
  · rw [if_neg hA] at h
    by_cases hO : t.orgSlug == ""
    · rw [if_pos hO] at h
      simp at h
    · rw [if_neg hO] at h
      rw [Except.ok.injEq] at h
      subst h
      exact ⟨by simpa using hA, by simpa using hO⟩

/-- Claim C7: configuration resolution accepts explicit org+token,
falls back to the `FLY_ACCESS_TOKEN` environment variable when the token
is absent, rejects a missing token (no fallback), an empty input and a
missing org slug, and every successful resolution has a non-empty auth
token and a non-empty org slug. -/
theorem C7_ParseTargetOptions_spec (env : Option String) :
    ParseTargetOptions (.ok { orgSlug := some "org", authToken := some "tok" }) env
      = .ok { region := "", size := "", diskSize := 0, orgSlug := "org",
              authToken := "tok" } ∧
    ParseTargetOptions (.ok { orgSlug := some "org" }) none
      = .error "auth token not set in env/target options" ∧
    ParseTargetOptions (.ok { orgSlug := some "org" }) (some "tok")
      = .ok { region := "", size := "", diskSize := 0, orgSlug := "org",
              authToken := "tok" } ∧
    ParseTargetOptions (.ok {}) none
      = .error "auth token not set in env/target options" ∧
    ParseTargetOptions (.ok { authToken := some "tok" }) none
      = .error "org slug not set in target options" ∧
    (∀ jsonRes envArg r, ParseTargetOptions jsonRes envArg = .ok r →
      r.authToken ≠ "" ∧ r.orgSlug ≠ "") := by
  refine ⟨rfl, rfl, rfl, rfl, rfl, ?_⟩
  intro jsonRes envArg r hok
  unfold ParseTargetOptions at hok
  cases jsonRes with
  | error e => simp at hok
  | ok j =>
    simp only at hok
    exact parse_checks hok

/-- Witness for C7: the invariant applied to the successful explicit
resolution. -/
theorem C7_ParseTargetOptions_spec_witness :
    ({ region := "", size := "", diskSize := 0, orgSlug := "org",
       authToken := "tok" } : TargetOptions).authToken ≠ "" ∧
    ({ region := "", size := "", diskSize := 0, orgSlug := "org",
       authToken := "tok" } : TargetOptions).orgSlug ≠ "" :=
  (C7_ParseTargetOptions_spec none).2.2.2.2.2
    (.ok { orgSlug := some "org", authToken := some "tok" }) none _ rfl

theorem pollLogs_output_eq (responses : List (Except String LogPage)) :
    ∀ prevToken nextToken,
      (pollLogs responses prevToken nextToken).output
        = ((okPages responses).map (fun p => p.1.map formatLogEntry)).flatten := by
  induction responses with
  | nil => intro prevToken nextToken; rfl
  | cons r rest ih =>
    intro prevToken nextToken
    cases r with
    | error e => simp [pollLogs, okPages]
    | ok p =>
      obtain ⟨entries, token⟩ := p
      simp [pollLogs, okPages, ih]

theorem pollLogs_result_eq (responses : List (Except String LogPage)) :
    ∀ prevToken nextToken,
      (pollLogs responses prevToken nextToken).result = scriptError responses := by
  induction responses with
  | nil => intro prevToken nextToken; rfl
  | cons r rest ih =>
    intro prevToken nextToken
    cases r with
    | error e => simp [pollLogs, scriptError]
    | ok p =>
      obtain ⟨entries, token⟩ := p
      simp [pollLogs, scriptError, ih]

theorem pollLogs_slept_eq (responses : List (Except String LogPage)) :
    ∀ prevToken nextToken,
      (pollLogs responses prevToken nextToken).slept
        = specSleepFlags prevToken ((okPages responses).map (fun p => p.2)) := by
  induction responses with
  | nil => intro prevToken nextToken; rfl
  | cons r rest ih =>
    intro prevToken nextToken
    cases r with
    | error e => simp [pollLogs, okPages, specSleepFlags]
    | ok p =>
      obtain ⟨entries, token⟩ := p
      simp [pollLogs, okPages, specSleepFlags, ih]

theorem pollLogs_fetches_eq (responses : List (Except String LogPage)) :
    ∀ prevToken nextToken,
      (pollLogs responses prevToken nextToken).fetches
        = specFetchTokens nextToken ((okPages responses).map (fun p => p.2))
            (scriptError responses).isSome := by
  induction responses with
  | nil => intro prevToken nextToken; rfl
  | cons r rest ih =>
    intro prevToken nextToken
    cases r with
    | error e => simp [pollLogs, okPages, scriptError, specFetchTokens]
    | ok p =>
      obtain ⟨entries, token⟩ := p
      simp [pollLogs, okPages, scriptError, specFetchTokens, ih]

/-- Claim C3, counterexample: after the script `t1`, `""`, `""` the second
response's token (`""`) differs from the previously returned token
(`t1`), so per the claim no sleep happens and the pagination token is
advanced — but the third fetch still uses `t1`: an empty returned token
is never adopted as the next fetch token. -/
theorem C3_pollLogs_counterexample :
    (pollLogs [.ok ([], "t1"), .ok ([], ""), .ok ([], "")] "" "").slept
      = [false, false, true] ∧
    (pollLogs [.ok ([], "t1"), .ok ([], ""), .ok ([], "")] "" "").fetches
      = ["", "t1", "t1"] ∧
    ("t1" : String) ≠ "" := by
  refine ⟨rfl, rfl, by decide⟩

/-- Claim C3 (amended): `pollLogs` delivers exactly the entries of the
pages preceding the first fetch error, formatted, page by page in
order; it stops exactly when a fetch errors, returning that error; it
sleeps 10 s exactly when the returned token equals the previously
returned token; and the fetch token advances to each non-empty returned
token, while an empty returned token leaves the fetch token unchanged. -/
theorem C3_pollLogs_spec (responses : List (Except String LogPage))
    (prevToken nextToken : String) :
    (pollLogs responses prevToken nextToken).output
      = ((okPages responses).map (fun p => p.1.map formatLogEntry)).flatten ∧
    (pollLogs responses prevToken nextToken).result = scriptError responses ∧
    (pollLogs responses prevToken nextToken).slept
      = specSleepFlags prevToken ((okPages responses).map (fun p => p.2)) ∧
    (pollLogs responses prevToken nextToken).fetches
      = specFetchTokens nextToken ((okPages responses).map (fun p => p.2))
          (scriptError responses).isSome :=
  ⟨pollLogs_output_eq responses prevToken nextToken,
    pollLogs_result_eq responses prevToken nextToken,
    pollLogs_slept_eq responses prevToken nextToken,
    pollLogs_fetches_eq responses prevToken nextToken⟩

theorem checkMachineReadyRun_pending_none (ready : Nat → Bool)
    (h : ∀ t, ready t = false) (tickInterval checkDur defaultDur deadline : Nat)
    (hc : tickInterval ≤ checkDur) :
    ∀ fuel s, s.nextTick ≤ s.now →
      checkMachineReadyRun ready tickInterval checkDur defaultDur deadline fuel s
        = none := by
  intro fuel
  induction fuel with
  | zero => intro s hs; rfl
  | succ n ih =>
    intro s hs
    unfold checkMachineReadyRun
    rw [if_pos hs, h s.now]
    simp only [Bool.false_eq_true, if_false]
    exact ih _ (by simp; omega)

theorem checkMachineReadyRun_before_deadline_none (ready : Nat → Bool)
    (h : ∀ t, ready t = false) (tickInterval checkDur defaultDur deadline : Nat)
    (hc : tickInterval ≤ checkDur) :
    ∀ fuel s, s.nextTick ≤ deadline →
      checkMachineReadyRun ready tickInterval checkDur defaultDur deadline fuel s
        = none := by
  intro fuel
  induction fuel with
  | zero => intro s hs; rfl
  | succ n ih =>
    intro s hs
    by_cases hp : s.nextTick ≤ s.now
    · exact checkMachineReadyRun_pending_none ready h tickInterval checkDur
        defaultDur deadline hc (n + 1) s hp
    · unfold checkMachineReadyRun
      rw [if_neg hp]
      have hnd : ¬ deadline < s.now := by omega
      rw [if_neg hnd]
      exact ih _ (by simpa using hs)

/-- Claim C1: with a state source that never reports a known-good state
and a readiness check that takes at least one 200 ms tick interval (so a
tick is always pending when the `select` runs), `checkMachineReady`'s
`select`/`default` loop NEVER takes the `default` branch that checks the
5-minute deadline: for every number of iterations the loop has not
returned — it neither times out within `deadline + epsilon` nor ever
returns, contradicting the claimed deterministic wall-clock bound. -/
theorem C1_checkMachineReady_starvation (defaultDur fuel : Nat) :
    checkMachineReadyRun (fun _ => false) pollTickIntervalMs pollTickIntervalMs
      defaultDur pollDeadlineMs fuel { now := 0, nextTick := pollTickIntervalMs }
      = none := by
  apply checkMachineReadyRun_before_deadline_none (fun _ => false)
    (fun _ => rfl) pollTickIntervalMs pollTickIntervalMs defaultDur
    pollDeadlineMs (le_refl _) fuel
  show pollTickIntervalMs ≤ pollDeadlineMs
  decide

theorem waitForDialRun_timeout (dials : Nat → Bool) (h : ∀ j, dials j = false)
    (dialDur sleepDur dialTimeout : Nat) :
    ∀ fuel k now, dialTimeout < now + fuel * (dialDur + sleepDur) →
      ∃ elapsed,
        waitForDialRun dials dialDur sleepDur dialTimeout (fuel + 1) k now
          = some (.error (dialTimeout, elapsed)) ∧ dialTimeout < elapsed := by
  intro fuel
  induction fuel with
  | zero =>
    intro k now hlt
    refine ⟨now, ?_, by omega⟩
    unfold waitForDialRun
    rw [if_pos (by omega : dialTimeout < now)]
  | succ n ih =>
    intro k now hlt
    by_cases ht : dialTimeout < now
    · refine ⟨now, ?_, ht⟩
      unfold waitForDialRun
      rw [if_pos ht]
    · unfold waitForDialRun
      rw [if_neg ht]
      simp only [h k, Bool.false_eq_true, if_false]
      apply ih
      rw [Nat.succ_mul] at hlt
      omega

theorem waitForDialRun_success (dials : Nat → Bool)
    (dialDur sleepDur dialTimeout : Nat) :
    ∀ K k now fuel, (∀ j, j < K → dials (k + j) = false) →
      dials (k + K) = true →
      now + K * (dialDur + sleepDur) ≤ dialTimeout →
      waitForDialRun dials dialDur sleepDur dialTimeout (K + (fuel + 1)) k now
        = some (.ok (k + K)) := by
  intro K
  induction K with
  | zero =>
    intro k now fuel hfail hsucc hle
    rw [show 0 + (fuel + 1) = fuel + 1 from by omega]
    unfold waitForDialRun
    rw [if_neg (by omega : ¬ dialTimeout < now)]
    have hk : dials k = true := by simpa using hsucc
    rw [if_pos hk]
    rfl
  | succ n ih =>
    intro k now fuel hfail hsucc hle
    rw [show (n + 1) + (fuel + 1) = (n + (fuel + 1)) + 1 from by omega]
    unfold waitForDialRun
    rw [Nat.succ_mul] at hle
    rw [if_neg (by omega : ¬ dialTimeout < now)]
    have hk : dials k = false := by simpa using hfail 0 (by omega)
    simp only [hk, Bool.false_eq_true, if_false]
    have := ih (k + 1) (now + (dialDur + sleepDur)) fuel
      (fun j hj => by
        have hfj := hfail (j + 1) (by omega)
        rwa [show k + (j + 1) = k + 1 + j from by omega] at hfj)
      (by rwa [show k + 1 + n = k + (n + 1) from by omega])
      (by omega)
    rwa [show k + 1 + n = k + (n + 1) from by omega] at this

/-- Claim C9, counterexample: with every dial failing, a 500 ms dial
attempt, a 1 s retry sleep and a 2 s timeout, the loop returns the
timeout error when 3000 ms have actually elapsed, yet the error carries
the configured 2000 ms timeout — not the elapsed duration. -/
theorem C9_waitForDial_counterexample :
    waitForDialRun (fun _ => false) 500 1000 2000 5 0 0
      = some (.error (2000, 3000)) ∧ (2000 : Nat) ≠ 3000 := by
  exact ⟨rfl, by decide⟩

/-- Claim C9 (amended): `waitForDial` silently retries failed dial
attempts at a constant interval with no backoff; if no attempt ever
succeeds it returns, strictly after the deadline has passed, a timeout
error carrying the CONFIGURED timeout duration (not the elapsed time);
and it returns success at the first attempt that succeeds before the
timeout. -/
theorem C9_waitForDial_spec (dials : Nat → Bool)
    (dialDur sleepDur dialTimeout : Nat) :
    (∀ fuel k now, (∀ j, dials j = false) →
      dialTimeout < now + fuel * (dialDur + sleepDur) →
      ∃ elapsed,
        waitForDialRun dials dialDur sleepDur dialTimeout (fuel + 1) k now
          = some (.error (dialTimeout, elapsed)) ∧ dialTimeout < elapsed) ∧
    (∀ K k now fuel, (∀ j, j < K → dials (k + j) = false) →
      dials (k + K) = true →
      now + K * (dialDur + sleepDur) ≤ dialTimeout →
      waitForDialRun dials dialDur sleepDur dialTimeout (K + (fuel + 1)) k now
        = some (.ok (k + K))) :=
  ⟨fun fuel k now hall hlt =>
      waitForDialRun_timeout dials hall dialDur sleepDur dialTimeout fuel k now hlt,
    fun K k now fuel hfail hsucc hle =>
      waitForDialRun_success dials dialDur sleepDur dialTimeout K k now fuel
        hfail hsucc hle⟩

/-- Witness for C9: both parts at concrete inputs — all dials failing
(timeout carrying 2000, elapsed beyond it), and the second attempt
succeeding in time. -/
theorem C9_waitForDial_spec_witness :
    (∃ elapsed, waitForDialRun (fun _ => false) 500 1000 2000 (2 + 1) 0 0
      = some (.error (2000, elapsed)) ∧ 2000 < elapsed) ∧
    waitForDialRun (fun k => k == 1) 500 1000 2000 (1 + (0 + 1)) 0 0
      = some (.ok (0 + 1)) := by
  constructor
  · exact (C9_waitForDial_spec (fun _ => false) 500 1000 2000).1 2 0 0
      (fun _ => rfl) (by norm_num)
  · exact (C9_waitForDial_spec (fun k => k == 1) 500 1000 2000).2 1 0 0 0
      (fun j hj => by
        have hj0 : j = 0 := by omega
        subst hj0
        rfl)
      rfl (by norm_num)

/-- Claim C8, counterexample: after a forwarding failure on a clean
filesystem, only the socket FILE is removed — the parent directory that
`os.MkdirAll` created remains — so the very next call finds the
directory, starts no new forward, and successfully returns a client
bound to the stale, non-functional socket path, instead of starting
from a clean state. -/
theorem C8_getDockerClient_counterexample :
    getDockerClientFs (.ok ()) (.ok ()) (.error "forward failed") (.ok ())
        { dirExists := false, sockFileExists := false }
      = ({ startedForward := true, removedSocket := true,
           result := .error "failed to start SSH tunnel" },
         { dirExists := true, sockFileExists := false }) ∧
    getDockerClientFs (.ok ()) (.ok ()) (.error "forward failed") (.ok ())
        { dirExists := true, sockFileExists := false }
      = ({ startedForward := false, removedSocket := false, result := .ok () },
         { dirExists := true, sockFileExists := false }) := by
  exact ⟨rfl, rfl⟩

/-- Claim C8 (amended): `getDockerClient` deduplicates via the presence
of the socket path's parent directory — if it exists, no new forwarding
task is started; otherwise it creates the directory, starts the
background forward and blocks on the one-shot started signal before
proceeding.  On a forwarding failure the local socket FILE is removed
and the caller receives an error, but the parent directory created by
`os.MkdirAll` is left in place; since the dedup check tests that
directory, a subsequent attempt short-circuits on the stale,
non-functional path (starting no new forward and returning a client on
the dead socket) rather than starting from a clean state. -/
theorem C8_getDockerClient_fs_spec
    (tsnetRes mkdirRes forwardRes clientRes : Except String Unit)
    (fs : SockFs) :
    (tsnetRes = .ok () → fs.dirExists = true →
      getDockerClientFs tsnetRes mkdirRes forwardRes clientRes fs
        = ({ startedForward := false, removedSocket := false,
             result := clientRes }, fs)) ∧
    (tsnetRes = .ok () → fs.dirExists = false → mkdirRes = .ok () →
      forwardRes = .ok () →
      getDockerClientFs tsnetRes mkdirRes forwardRes clientRes fs
        = ({ startedForward := true, removedSocket := false,
             result := clientRes },
           { dirExists := true, sockFileExists := true })) ∧
    (∀ e, tsnetRes = .ok () → fs.dirExists = false → mkdirRes = .ok () →
      forwardRes = .error e →
      getDockerClientFs tsnetRes mkdirRes forwardRes clientRes fs
        = ({ startedForward := true, removedSocket := true,
             result := .error "failed to start SSH tunnel" },
           { dirExists := true, sockFileExists := false }) ∧
      (∀ laterForwardRes : Except String Unit,
        getDockerClientFs (.ok ()) mkdirRes laterForwardRes clientRes
            { dirExists := true, sockFileExists := false }
          = ({ startedForward := false, removedSocket := false,
               result := clientRes },
             { dirExists := true, sockFileExists := false }))) := by
  obtain ⟨dirE, sockE⟩ := fs
  refine ⟨?_, ?_, ?_⟩
  · rintro rfl h
    cases h
    rfl
  · rintro rfl h rfl rfl
    cases h
    rfl
  · rintro e rfl h rfl rfl
    cases h
    exact ⟨rfl, fun laterForwardRes => rfl⟩

/-- Witness for C8: the three paths at concrete inputs — dedup skip,
successful forward, and failed forward followed by the short-circuiting
second call. -/
theorem C8_getDockerClient_fs_spec_witness :
    (getDockerClientFs (.ok ()) (.ok ()) (.ok ()) (.ok ())
        { dirExists := true, sockFileExists := true }
      = ({ startedForward := false, removedSocket := false, result := .ok () },
         { dirExists := true, sockFileExists := true })) ∧
    (getDockerClientFs (.ok ()) (.ok ()) (.ok ()) (.ok ())
        { dirExists := false, sockFileExists := false }
      = ({ startedForward := true, removedSocket := false, result := .ok () },
         { dirExists := true, sockFileExists := true })) ∧
    (getDockerClientFs (.ok ()) (.ok ()) (.error "forward failed") (.ok ())
        { dirExists := false, sockFileExists := false }
      = ({ startedForward := true, removedSocket := true,
           result := .error "failed to start SSH tunnel" },
         { dirExists := true, sockFileExists := false }) ∧
      (∀ laterForwardRes : Except String Unit,
        getDockerClientFs (.ok ()) (.ok ()) laterForwardRes (.ok ())
            { dirExists := true, sockFileExists := false }
          = ({ startedForward := false, removedSocket := false,
               result := .ok () },
             { dirExists := true, sockFileExists := false }))) :=
  ⟨(C8_getDockerClient_fs_spec (.ok ()) (.ok ()) (.ok ()) (.ok ())
      { dirExists := true, sockFileExists := true }).1 rfl rfl,
    (C8_getDockerClient_fs_spec (.ok ()) (.ok ()) (.ok ()) (.ok ())
      { dirExists := false, sockFileExists := false }).2.1 rfl rfl rfl rfl,
    (C8_getDockerClient_fs_spec (.ok ()) (.ok ()) (.error "forward failed")
      (.ok ()) { dirExists := false, sockFileExists := false }).2.2
      "forward failed" rfl rfl rfl rfl⟩

/-- Claim C10: the three metadata operations read `Mounts[0]` with no
emptiness check: they produce a value exactly when the machine has at
least one mount (reading the first mount's volume ID), and on an empty
mount list the access is an out-of-bounds panic (modelled `none`), not a
returned error. -/
theorem C10_metadata_mounts_access (m : Machine) :
    ((GetTargetProviderMetadata (.ok m)).isSome ↔ m.config.mounts ≠ []) ∧
    ((getProjectInfoMetadata (.ok m)).isSome ↔ m.config.mounts ≠ []) ∧
    ((getWorkspaceInfoMetadata (.ok m)).isSome ↔ m.config.mounts ≠ []) ∧
    (m.config.mounts = [] →
      GetTargetProviderMetadata (.ok m) = none ∧
      getProjectInfoMetadata (.ok m) = none ∧
      getWorkspaceInfoMetadata (.ok m) = none) ∧
    (∀ mount rest, m.config.mounts = mount :: rest →
      GetTargetProviderMetadata (.ok m)
        = some (.ok
            { machineId := m.id, volumeId := mount.volume,
              isRunning := m.state == MachineStateStarted,
              created := m.createdAt }) ∧
      getProjectInfoMetadata (.ok m)
        = some (.ok { machineId := m.id, volumeId := mount.volume }) ∧
      getWorkspaceInfoMetadata (.ok m)
        = some (.ok
            { machineId := m.id, volumeId := mount.volume,
              isRunning := m.state == MachineStateStarted,
              created := m.createdAt })) := by
  cases hm : m.config.mounts with
  | nil =>
    refine ⟨?_, ?_, ?_, ?_, ?_⟩
    · simp [GetTargetProviderMetadata, hm]
    · simp [getProjectInfoMetadata, hm]
    · simp [getWorkspaceInfoMetadata, hm]
    · intro h
      exact ⟨by simp [GetTargetProviderMetadata, hm],
        by simp [getProjectInfoMetadata, hm],
        by simp [getWorkspaceInfoMetadata, hm]⟩
    · intro mount rest h
      simp at h
  | cons mount rest =>
    refine ⟨?_, ?_, ?_, ?_, ?_⟩
    · simp [GetTargetProviderMetadata, hm]
    · simp [getProjectInfoMetadata, hm]
    · simp [getWorkspaceInfoMetadata, hm]
    · intro h
      simp at h
    · intro mount' rest' h
      injection h with h1 h2
      subst h1
      subst h2
      exact ⟨by simp [GetTargetProviderMetadata, hm],
        by simp [getProjectInfoMetadata, hm],
        by simp [getWorkspaceInfoMetadata, hm]⟩

/-- Witness for C10: a machine with no mounts panics (no value), and a
machine with one mount yields metadata carrying its volume ID. -/
theorem C10_metadata_mounts_access_witness :
    (GetTargetProviderMetadata (.ok sampleStartedMachine) = none ∧
      getProjectInfoMetadata (.ok sampleStartedMachine) = none ∧
      getWorkspaceInfoMetadata (.ok sampleStartedMachine) = none) ∧
    (GetTargetProviderMetadata (.ok sampleMountedMachine)
        = some (.ok
            { machineId := sampleMountedMachine.id,
              volumeId := sampleMount.volume,
              isRunning := sampleMountedMachine.state == MachineStateStarted,
              created := sampleMountedMachine.createdAt }) ∧
      getProjectInfoMetadata (.ok sampleMountedMachine)
        = some (.ok
            { machineId := sampleMountedMachine.id,
              volumeId := sampleMount.volume }) ∧
      getWorkspaceInfoMetadata (.ok sampleMountedMachine)
        = some (.ok
            { machineId := sampleMountedMachine.id,
              volumeId := sampleMount.volume,
              isRunning := sampleMountedMachine.state == MachineStateStarted,
              created := sampleMountedMachine.createdAt })) :=
  ⟨(C10_metadata_mounts_access sampleStartedMachine).2.2.2.1 rfl,
    (C10_metadata_mounts_access sampleMountedMachine).2.2.2.2
      sampleMount [] rfl⟩

end DaytonaFly
